import Mathlib

/-!
Verification of the Log Metrics Extraction Engine of the
moodle-enrolment-monitor repository (`enrollment_monitor.py`).

The engine is shallowly embedded: `detect_log_format`, the per-line rule
sets of `parse_log_file`, the batch sub-state machine, the faculty/department
breakdown scan and the reconciliation pass are translated line by line from
the Python source.  Python's `re.search` calls are modelled by a small
executable matcher for the restricted pattern language the source actually
uses (literals, `(\d+)`, `(\d*)`, `[,]*`, and `.*` immediately followed by a
literal).  Points where Python's `int()` could raise are modelled in the
`Except` monad, so that totality of the extraction surface is a theorem
rather than an artifact of the embedding.
-/

namespace EnrollmentMonitor

/-- ASCII digit test, the semantics of `\d` for the byte-oriented log lines. -/
def isDigitC (c : Char) : Bool := '0' ≤ c && c ≤ '9'

/-- ASCII lower-casing of one character.  Python's `str.lower` agrees with
this on the ASCII-plus-symbols alphabet of these logs (the only non-ASCII
characters the source ever tests for, `✓` and `✗`, are caseless). -/
def lowerC (c : Char) : Char :=
  if 'A' ≤ c && c ≤ 'Z' then Char.ofNat (c.toNat + 32) else c

/-- Lower-case a whole character sequence, modelling `line.lower()`. -/
def lowerS (cs : List Char) : List Char := cs.map lowerC

/-- `leadsWith pat s` holds when `pat` is an initial segment of `s`. -/
def leadsWith : List Char → List Char → Bool
  | [], _ => true
  | _ :: _, [] => false
  | p :: ps, c :: cs => p == c && leadsWith ps cs

/-- Substring containment, modelling Python's `pat in s` on strings. -/
def containsSub (pat : List Char) : List Char → Bool
  | [] => leadsWith pat []
  | s@(_ :: rest) => leadsWith pat s || containsSub pat rest

/-- Convenience wrapper taking the needle as a string literal. -/
def hasSub (pat : String) (s : List Char) : Bool := containsSub pat.data s

/-- One element of the restricted regular-expression language used by the
source: a literal, a capturing `(\d+)`, a capturing `(\d*)`, a non-capturing
`[,]*`, or `.*` immediately followed by a literal (the only way `.*` occurs
in the source's patterns). -/
inductive RElem where
  | lit (cs : List Char)
  | digits1
  | digitsStar
  | commaStar
  | dotStarLit (cs : List Char)
deriving DecidableEq, Repr

/-- Maximal digit run at the head of the input. -/
def takeDigits (s : List Char) : List Char := s.takeWhile isDigitC

/-- Maximal comma run at the head of the input. -/
def takeCommas (s : List Char) : List Char := s.takeWhile (fun c => c == ',')

/-- `tryDrops f s k`: first success among `f (s.drop k)`, `f (s.drop (k-1))`,
..., `f (s.drop 0)` — the backtracking search of a greedy `.*`, largest drop
(shortest remaining suffix) first. -/
def tryDrops (f : List Char → Option α) (s : List Char) : Nat → Option α
  | 0 => f s
  | k + 1 =>
      match f (s.drop (k + 1)) with
      | some r => some r
      | none => tryDrops f s k

/-- Match a pattern against a prefix of `s` (trailing input is ignored, as
with `re.search` once a start position is fixed) and return the list of
captured groups in order.  `(\d+)`, `(\d*)` and `[,]*` take their maximal
munch without backtracking: in every pattern below, the element that follows
such a run can never consume a digit or comma, so Python's greedy
backtracking engine returns exactly the maximal-munch split whenever any
split succeeds.  `.*LITERAL` tries the rightmost occurrence of the literal
first and backtracks leftward, exactly as the greedy `.*` does. -/
def matchHere : List RElem → List Char → Option (List (List Char))
  | [] => fun _ => some []
  | .lit cs :: ps => fun s =>
      if leadsWith cs s then matchHere ps (s.drop cs.length) else none
  | .digits1 :: ps => fun s =>
      let d := takeDigits s
      if d.isEmpty then none
      else (matchHere ps (s.drop d.length)).map (fun gs => d :: gs)
  | .digitsStar :: ps => fun s =>
      let d := takeDigits s
      (matchHere ps (s.drop d.length)).map (fun gs => d :: gs)
  | .commaStar :: ps => fun s =>
      matchHere ps (s.drop (takeCommas s).length)
  | .dotStarLit cs :: ps => fun s =>
      tryDrops (fun t => if leadsWith cs t then matchHere ps (t.drop cs.length) else none)
        s s.length

/-- `re.search`: try every start position, leftmost first. -/
def reSearch (p : List RElem) : List Char → Option (List (List Char))
  | [] => matchHere p []
  | s@(_ :: rest) =>
      match matchHere p s with
      | some gs => some gs
      | none => reSearch p rest

/-- `r'Resolved (\d+)/(\d+) users'` (source line 174). -/
def patResolvedUsers : List RElem :=
  [.lit "Resolved ".data, .digits1, .lit "/".data, .digits1, .lit " users".data]

/-- `r'Resolved (\d+)/(\d+) courses'` (source line 182). -/
def patResolvedCourses : List RElem :=
  [.lit "Resolved ".data, .digits1, .lit "/".data, .digits1, .lit " courses".data]

/-- `r'Prepared (\d+)[,]*(\d*).*\((\d+)[,]*(\d*) skipped\)'` (source line 190). -/
def patPreparedA : List RElem :=
  [.lit "Prepared ".data, .digits1, .commaStar, .digitsStar,
   .dotStarLit "(".data, .digits1, .commaStar, .digitsStar, .lit " skipped)".data]

/-- `r'successful: (\d+).*failed: (\d+)'` (source line 200); note the pattern
is lower-case and `re.search` is case-sensitive, while its guard tests the
lower-cased line. -/
def patSummaryA : List RElem :=
  [.lit "successful: ".data, .digits1, .dotStarLit "failed: ".data, .digits1]

/-- `r'Total enrollments: (\d+)'` (source line 210). -/
def patTotalEnr : List RElem := [.lit "Total enrollments: ".data, .digits1]

/-- `r'Unique users: (\d+)'` (source line 216). -/
def patUniqueUsers : List RElem := [.lit "Unique users: ".data, .digits1]

/-- `r'Unique courses: (\d+)'` (source line 222). -/
def patUniqueCourses : List RElem := [.lit "Unique courses: ".data, .digits1]

/-- `r'Batch (\d+): (\d+) enrollments'` (source line 229). -/
def patBatchOpen : List RElem :=
  [.lit "Batch ".data, .digits1, .lit ": ".data, .digits1, .lit " enrollments".data]

/-- `r'(\d+) success, (\d+) failed'` (source line 261). -/
def patComplete : List RElem :=
  [.digits1, .lit " success, ".data, .digits1, .lit " failed".data]

/-- `r'Prepared (\d+) enrollments \((\d+) skipped\)'` (source line 268). -/
def patPreparedB : List RElem :=
  [.lit "Prepared ".data, .digits1, .lit " enrollments (".data, .digits1,
   .lit " skipped)".data]

/-- `s.replace(',', '')`: drop every comma. -/
def stripCommas (cs : List Char) : List Char := cs.filter (fun c => c != ',')

/-- Numeric value of a digit string (only ever applied to all-digit runs). -/
def digitsVal (cs : List Char) : Nat :=
  cs.foldl (fun a c => a * 10 + (c.toNat - '0'.toNat)) 0

/-- Python's `int()` on a captured string: fails (raises `ValueError`) unless
the string is a non-empty digit run.  The extraction engine's only fallible
operations are these conversions, so modelling them in `Except` makes
"extraction never raises" a provable statement. -/
def pyIntE (cs : List Char) : Except String Nat :=
  if cs.isEmpty || !cs.all isDigitC then .error "invalid literal for int"
  else .ok (digitsVal cs)

/-- The log dialects of `detect_log_format`: `simple_enroll` is the spec's
FormatA, `original_push` FormatC, `original_batch` FormatB. -/
inductive LogFormat where
  | simple_enroll
  | original_push
  | original_batch
  | unknown
deriving DecidableEq, Repr

/-- Status of a (possibly in-flight) batch. -/
inductive BStatus where
  | Processing
  | Success
  | Failed
deriving DecidableEq, Repr

/-- One batch record `{'batch': ..., 'count': ..., 'status': ...}`. -/
structure Batch where
  batch : Nat
  count : Nat
  status : BStatus
deriving DecidableEq, Repr

/-- The `metrics` dictionary of `parse_log_file` (source lines 77-99).
`last_run` holds the modification timestamp handed in by the caller (the
source formats it to a string; the formatting is presentation only).
Breakdown dictionaries are insertion-ordered association lists, as Python
dicts are.  `users_missing`/`courses_missing` are integers because the
source computes them by subtraction. -/
structure Metrics where
  last_run : Nat
  total_records : Nat
  successful : Nat
  errors : Nat
  recent_entries : List (List Char)
  course_not_found : Nat
  user_creation_failed : Nat
  faculty_breakdown : List (String × Nat)
  department_breakdown : List (String × Nat)
  api_errors : Nat
  batch_info : List Batch
  users_found : Nat
  users_missing : Int
  courses_found : Nat
  courses_missing : Int
  skipped_records : Nat
  log_format : LogFormat
  total_batches : Nat
  successful_batches : Nat
  failed_batches : Nat
deriving DecidableEq, Repr

/-- The fresh `metrics` dictionary, all counters zero. -/
def initMetrics (mtime : Nat) : Metrics where
  last_run := mtime
  total_records := 0
  successful := 0
  errors := 0
  recent_entries := []
  course_not_found := 0
  user_creation_failed := 0
  faculty_breakdown := []
  department_breakdown := []
  api_errors := 0
  batch_info := []
  users_found := 0
  users_missing := 0
  courses_found := 0
  courses_missing := 0
  skipped_records := 0
  log_format := .unknown
  total_batches := 0
  successful_batches := 0
  failed_batches := 0

/-- The `faculty_codes` table (source lines 102-134), in source order. -/
def faculty_codes : List (String × String) :=
  [("ANLA", "Faculty of Arts and Design"),
   ("RSMH", "Faculty of Applied Sciences"),
   ("AOMT", "Faculty of Management Sciences"),
   ("CSTN", "Faculty of Accounting and Informatics"),
   ("RERE", "Faculty of Applied Sciences"),
   ("RSPM", "Faculty of Management Sciences"),
   ("APEM", "Faculty of Management Sciences"),
   ("ARMP", "Faculty of Management Sciences"),
   ("PMIR", "Faculty of Management Sciences"),
   ("ADFM", "Faculty of Accounting and Informatics"),
   ("FNLT", "Faculty of Applied Sciences"),
   ("CAAU", "Faculty of Accounting and Informatics"),
   ("BSNC", "Faculty of Applied Sciences"),
   ("BNMN", "Faculty of Management Sciences"),
   ("SHPM", "Faculty of Management Sciences"),
   ("IMIC", "Faculty of Applied Sciences"),
   ("TRMP", "Faculty of Engineering and the Built Environment"),
   ("WWRK", "Faculty of Engineering and the Built Environment"),
   ("CMEP", "Faculty of Engineering and the Built Environment"),
   ("REMA", "Faculty of Management Sciences"),
   ("TAXB", "Faculty of Accounting and Informatics"),
   ("CCHB", "Faculty of Applied Sciences"),
   ("PBLF", "Faculty of Management Sciences"),
   ("TIPP", "Faculty of Management Sciences"),
   ("CADR", "Faculty of Arts and Design"),
   ("HYSA", "Faculty of Applied Sciences"),
   ("LABR", "Faculty of Applied Sciences"),
   ("IMAE", "Faculty of Applied Sciences"),
   ("FSTX", "Faculty of Applied Sciences"),
   ("FPSO", "Faculty of Applied Sciences"),
   ("FDPD", "Faculty of Applied Sciences")]

/-- `detect_log_format` (source lines 60-73): substring heuristics over the
lower-cased, space-joined first 50 lines; first match wins.  Note rule 3
tests the British spelling `enrolments`. -/
def detect_log_format (lines : List String) : LogFormat :=
  let sample := lowerS (List.intercalate [' '] ((lines.take 50).map String.data))
  if hasSub "resolved" sample && hasSub "users" sample then .simple_enroll
  else if hasSub "push complete:" sample then .original_push
  else if hasSub "batch" sample && hasSub "enrolments" sample then .original_batch
  else if hasSub "prepared" sample && hasSub "enrollments" sample then .simple_enroll
  else .unknown

/-- Increment an insertion-ordered association list at a key, appending the
key with count 1 when absent — exactly the source's init-to-0-then-`+= 1`
idiom on a Python dict. -/
def bump : List (String × Nat) → String → List (String × Nat)
  | [], k => [(k, 1)]
  | (k', v) :: rest, k =>
      if k' == k then (k', v + 1) :: rest else (k', v) :: bump rest k

/-- Count stored at a key (0 when absent). -/
def cnt : List (String × Nat) → String → Nat
  | [], _ => 0
  | (k', v) :: rest, k => if k' == k then v else cnt rest k

/-- One iteration of the faculty-code scan (source lines 157-168): if the
code occurs verbatim in the raw line and the line carries a `_SEM` marker or
the word `course` (case-insensitive), bump both breakdowns. -/
def facUpdate (cs lcs : List Char) (m : Metrics) (p : String × String) : Metrics :=
  if containsSub p.1.data cs && (hasSub "_SEM" cs || hasSub "course" lcs) then
    { m with faculty_breakdown := bump m.faculty_breakdown p.2,
             department_breakdown := bump m.department_breakdown p.1 }
  else m

/-- The full per-line faculty-code scan over the table. -/
def facStep (cs lcs : List Char) (m : Metrics) : Metrics :=
  faculty_codes.foldl (facUpdate cs lcs) m

/-- The `simple_enroll` rule chain (source lines 171-204).  The last rule
scans forward over `lines[i:i+5]` for the first line whose lower-casing
contains both `successful:` and `failed:`, then applies the (case-sensitive)
summary pattern to that raw line. -/
def simpleStepE (all : List String) (i : Nat) (line : String) (m : Metrics) :
    Except String Metrics :=
  let cs := line.data
  let lcs := lowerS cs
  if hasSub "resolved" lcs && hasSub "users" lcs then
    match reSearch patResolvedUsers cs with
    | some gs =>
        match pyIntE (gs.getD 0 []), pyIntE (gs.getD 1 []) with
        | .ok found, .ok total =>
            .ok { m with users_found := found,
                         users_missing := (total : Int) - (found : Int) }
        | .error e, _ => .error e
        | _, .error e => .error e
    | none => .ok m
  else if hasSub "resolved" lcs && hasSub "courses" lcs then
    match reSearch patResolvedCourses cs with
    | some gs =>
        match pyIntE (gs.getD 0 []), pyIntE (gs.getD 1 []) with
        | .ok found, .ok total =>
            .ok { m with courses_found := found,
                         courses_missing := (total : Int) - (found : Int) }
        | .error e, _ => .error e
        | _, .error e => .error e
    | none => .ok m
  else if hasSub "prepared" lcs && hasSub "enrollments" lcs then
    match reSearch patPreparedA cs with
    | some gs =>
        match pyIntE (stripCommas (gs.getD 0 [])),
              pyIntE (stripCommas (gs.getD 2 [])) with
        | .ok t, .ok sk =>
            .ok { m with total_records := t, skipped_records := sk }
        | .error e, _ => .error e
        | _, .error e => .error e
    | none => .ok m
  else if hasSub "enrollment complete" lcs then
    match ((all.drop i).take 5).find? (fun l =>
        hasSub "successful:" (lowerS l.data) && hasSub "failed:" (lowerS l.data)) with
    | some l =>
        match reSearch patSummaryA l.data with
        | some gs =>
            match pyIntE (gs.getD 0 []), pyIntE (gs.getD 1 []) with
            | .ok s, .ok f => .ok { m with successful := s, errors := f }
            | .error e, _ => .error e
            | _, .error e => .error e
        | none => .ok m
    | none => .ok m
  else .ok m

/-- Rule `'total enrollments:'` of the original branch (source lines 209-212). -/
def ruleTotalE (cs lcs : List Char) (m : Metrics) : Except String Metrics :=
  if hasSub "total enrollments:" lcs then
    match reSearch patTotalEnr cs with
    | some gs =>
        match pyIntE (gs.getD 0 []) with
        | .ok t => .ok { m with total_records := t }
        | .error e => .error e
    | none => .ok m
  else .ok m

/-- Rule `'unique users:'` of the original branch (source lines 215-218). -/
def ruleUniqueUsersE (cs lcs : List Char) (m : Metrics) : Except String Metrics :=
  if hasSub "unique users:" lcs then
    match reSearch patUniqueUsers cs with
    | some gs =>
        match pyIntE (gs.getD 0 []) with
        | .ok n => .ok { m with users_found := n }
        | .error e => .error e
    | none => .ok m
  else .ok m

/-- Rule `'unique courses:'` of the original branch (source lines 221-224). -/
def ruleUniqueCoursesE (cs lcs : List Char) (m : Metrics) : Except String Metrics :=
  if hasSub "unique courses:" lcs then
    match reSearch patUniqueCourses cs with
    | some gs =>
        match pyIntE (gs.getD 0 []) with
        | .ok n => .ok { m with courses_found := n }
        | .error e => .error e
    | none => .ok m
  else .ok m

/-- The `if/elif` chain of the original branch (source lines 227-271):
batch open (overwriting any in-flight batch), batch close as success or
failure, API-failure counter, terminal summary, prepared-with-skipped. -/
def origChainE (cs lcs : List Char) (m : Metrics) (cur : Option Batch) :
    Except String (Metrics × Option Batch) :=
  if hasSub "batch" lcs && hasSub "enrollments" lcs then
    match reSearch patBatchOpen cs with
    | some gs =>
        match pyIntE (gs.getD 0 []), pyIntE (gs.getD 1 []) with
        | .ok b, .ok c =>
            .ok ({ m with total_batches := m.total_batches + 1 },
                 some { batch := b, count := c, status := .Processing })
        | .error e, _ => .error e
        | _, .error e => .error e
    | none => .ok (m, cur)
  else if hasSub "success" lcs && (hasSub "batch" lcs || hasSub "✓" cs) then
    match cur with
    | some b =>
        .ok ({ m with
                 batch_info := m.batch_info ++ [{ b with status := .Success }],
                 successful_batches := m.successful_batches + 1,
                 successful := m.successful + b.count }, none)
    | none => .ok (m, cur)
  else if hasSub "fail" lcs && (hasSub "batch" lcs || hasSub "✗" cs) then
    match cur with
    | some b =>
        .ok ({ m with
                 batch_info := m.batch_info ++ [{ b with status := .Failed }],
                 failed_batches := m.failed_batches + 1,
                 errors := m.errors + b.count }, none)
    | none => .ok (m, cur)
  else if hasSub "api call" lcs && hasSub "failed" lcs then
    .ok ({ m with api_errors := m.api_errors + 1 }, cur)
  else if hasSub "enrollment complete:" lcs then
    match reSearch patComplete cs with
    | some gs =>
        match pyIntE (gs.getD 0 []), pyIntE (gs.getD 1 []) with
        | .ok s, .ok f => .ok ({ m with successful := s, errors := f }, cur)
        | .error e, _ => .error e
        | _, .error e => .error e
    | none => .ok (m, cur)
  else if hasSub "prepared" lcs && hasSub "enrollments" lcs then
    match reSearch patPreparedB cs with
    | some gs =>
        match pyIntE (gs.getD 0 []), pyIntE (gs.getD 1 []) with
        | .ok t, .ok sk =>
            .ok ({ m with total_records := t, skipped_records := sk }, cur)
        | .error e, _ => .error e
        | _, .error e => .error e
    | none => .ok (m, cur)
  else .ok (m, cur)

/-- One line of the original (non-`simple_enroll`) branch: the three
independent `if` rules followed by the `if/elif` chain, in source order. -/
def origStepE (line : String) (m : Metrics) (cur : Option Batch) :
    Except String (Metrics × Option Batch) :=
  let cs := line.data
  let lcs := lowerS cs
  match ruleTotalE cs lcs m with
  | .error e => .error e
  | .ok m1 =>
      match ruleUniqueUsersE cs lcs m1 with
      | .error e => .error e
      | .ok m2 =>
          match ruleUniqueCoursesE cs lcs m2 with
          | .error e => .error e
          | .ok m3 => origChainE cs lcs m3 cur

/-- The enumerate loop of `parse_log_file` (source lines 153-271): for every
line, run the faculty-code scan, then the rule set selected by the detected
format, threading the in-flight batch. -/
def mainLoopE (all : List String) :
    List String → Nat → Metrics → Option Batch →
    Except String (Metrics × Option Batch)
  | [], _, m, cur => .ok (m, cur)
  | line :: rest, i, m, cur =>
      let m1 := facStep line.data (lowerS line.data) m
      if m1.log_format == .simple_enroll then
        match simpleStepE all i line m1 with
        | .error e => .error e
        | .ok m2 => mainLoopE all rest (i + 1) m2 cur
      else
        match origStepE line m1 cur with
        | .error e => .error e
        | .ok (m2, cur2) => mainLoopE all rest (i + 1) m2 cur2

/-- ASCII whitespace, the characters Python's `str.strip()` removes from
these log lines. -/
def isSpaceC (c : Char) : Bool :=
  c == ' ' || c == '\t' || c == '\n' || c == '\x0d' ||
  c == '\x0b' || c == '\x0c'

/-- `line.strip()`. -/
def pyStrip (cs : List Char) : List Char :=
  ((cs.dropWhile isSpaceC).reverse.dropWhile isSpaceC).reverse

/-- `[line.strip() for line in lines[-30:] if line.strip()]` (source line 274). -/
def recentEntries (lines : List String) : List (List Char) :=
  ((lines.drop (lines.length - 30)).map (fun l => pyStrip l.data)).filter
    (fun l => !l.isEmpty)

/-- Sum of counts of completed batches with the given status. -/
def sumStatus (bi : List Batch) (st : BStatus) : Nat :=
  bi.foldl (fun a b => if b.status == st then a + b.count else a) 0

/-- First reconciliation step (source lines 277-280): when both `successful`
and `errors` are still zero, recompute them from the completed batches. -/
def recon1 (m : Metrics) : Metrics :=
  if m.successful == 0 && m.errors == 0 then
    { m with successful := sumStatus m.batch_info .Success,
             errors := sumStatus m.batch_info .Failed }
  else m

/-- Second reconciliation step (source lines 283-284): when `total_records`
is zero, derive it from `successful + errors + skipped_records`. -/
def recon2 (m : Metrics) : Metrics :=
  if m.total_records == 0 then
    { m with total_records := m.successful + m.errors + m.skipped_records }
  else m

/-- The full reconciliation pass. -/
def reconcile (m : Metrics) : Metrics := recon2 (recon1 m)

/-- The extraction pipeline on its pure surface (source lines 136-291 with
the file I/O already performed by the caller): detect the dialect, run the
per-line loop, record the recent-entries window, reconcile.  A Python
exception escaping the loop is an `Except.error`; theorem `C3` below shows
this never happens. -/
def parse_core (lines : List String) (mtime : Nat) : Except String Metrics :=
  let m0 := { initMetrics mtime with log_format := detect_log_format lines }
  match mainLoopE lines lines 0 m0 none with
  | .error e => .error e
  | .ok (m1, _) =>
      .ok (reconcile { m1 with recent_entries := recentEntries lines })

/-- The returned metrics object.  The error branch is proved unreachable
(theorem `C3`), so the choice of fallback there is immaterial. -/
def parse_log_file (lines : List String) (mtime : Nat) : Metrics :=
  match parse_core lines mtime with
  | .ok m => m
  | .error _ => initMetrics mtime

/-! ### Captured groups are digit runs

Every group produced by the matcher is a run of digit characters, and groups
of `(\d+)` elements are non-empty.  This is what makes the `int()` calls of
the source (modelled by `pyIntE`) infallible. -/

/-- Shape of the capture list produced by matching a pattern: one group per
capturing element, in order; `(\d+)` groups are non-empty digit runs,
`(\d*)` groups are possibly-empty digit runs. -/
def capsOK : List RElem → List (List Char) → Prop
  | [], gs => gs = []
  | .lit _ :: ps, gs => capsOK ps gs
  | .digits1 :: ps, gs =>
      ∃ d gs', gs = d :: gs' ∧ d ≠ [] ∧ d.all isDigitC = true ∧ capsOK ps gs'
  | .digitsStar :: ps, gs =>
      ∃ d gs', gs = d :: gs' ∧ d.all isDigitC = true ∧ capsOK ps gs'
  | .commaStar :: ps, gs => capsOK ps gs
  | .dotStarLit _ :: ps, gs => capsOK ps gs

theorem takeDigits_all (s : List Char) : (takeDigits s).all isDigitC = true := by
  simp only [takeDigits, List.all_eq_true]
  exact fun x hx => List.mem_takeWhile_imp hx

theorem tryDrops_some {f : List Char → Option α} {s : List Char} {k : Nat} {r : α}
    (h : tryDrops f s k = some r) : ∃ t, f t = some r := by
  induction k with
  | zero => exact ⟨s, h⟩
  | succ k ih =>
      unfold tryDrops at h
      revert h
      split
      · intro h; exact ⟨s.drop (k + 1), by simp_all⟩
      · intro h; exact ih h

theorem matchHere_caps :
    ∀ (ps : List RElem) (s : List Char) (gs : List (List Char)),
      matchHere ps s = some gs → capsOK ps gs := by
  intro ps
  induction ps with
  | nil =>
      intro s gs h
      simp only [matchHere] at h
      simp [capsOK, ← Option.some.injEq, h]
  | cons p ps ih =>
      intro s gs h
      cases p with
      | lit cs =>
          simp only [matchHere] at h
          split at h
          · exact ih _ _ h
          · exact absurd h (by simp)
      | digits1 =>
          simp only [matchHere] at h
          split at h
          · exact absurd h (by simp)
          · rename_i hne
            rcases Option.map_eq_some'.mp h with ⟨gs', hgs', rfl⟩
            exact ⟨takeDigits s, gs', rfl, by simpa using hne, takeDigits_all s,
              ih _ _ hgs'⟩
      | digitsStar =>
          simp only [matchHere] at h
          rcases Option.map_eq_some'.mp h with ⟨gs', hgs', rfl⟩
          exact ⟨takeDigits s, gs', rfl, takeDigits_all s, ih _ _ hgs'⟩
      | commaStar =>
          simp only [matchHere] at h
          exact ih _ _ h
      | dotStarLit cs =>
          simp only [matchHere] at h
          rcases tryDrops_some h with ⟨t, ht⟩
          revert ht
          split
          · intro ht; exact ih _ _ ht
          · intro ht; exact absurd ht (by simp)

theorem reSearch_caps {p : List RElem} :
    ∀ {s : List Char} {gs : List (List Char)},
      reSearch p s = some gs → capsOK p gs := by
  intro s
  induction s with
  | nil => exact fun h => matchHere_caps _ _ _ h
  | cons c rest ih =>
      intro gs h
      simp only [reSearch] at h
      rcases hm : matchHere p (c :: rest) with _ | gs2 <;>
        simp only [hm, Option.some.injEq] at h
      · exact ih h
      · exact h ▸ matchHere_caps _ _ _ hm

theorem pyIntE_isOk {d : List Char} (hne : d ≠ []) (hd : d.all isDigitC = true) :
    ∃ n, pyIntE d = .ok n := by
  refine ⟨digitsVal d, ?_⟩
  simp [pyIntE, hd, List.isEmpty_iff, hne]

theorem isDigitC_ne_comma {c : Char} (h : isDigitC c = true) : (c != ',') = true := by
  simp only [bne_iff_ne, ne_eq]
  rintro rfl
  exact absurd h (by decide)

theorem stripCommas_digits {d : List Char} (hd : d.all isDigitC = true) :
    stripCommas d = d := by
  refine List.filter_eq_self.mpr fun c hc => ?_
  exact isDigitC_ne_comma (List.all_eq_true.mp hd c hc)

/-- Patterns whose captures are exactly two `(\d+)` groups: both convert. -/
theorem capsTwo_ok {gs : List (List Char)}
    (h : ∃ d gs', gs = d :: gs' ∧ d ≠ [] ∧ d.all isDigitC = true ∧
      ∃ d2 gs2, gs' = d2 :: gs2 ∧ d2 ≠ [] ∧ d2.all isDigitC = true ∧ gs2 = []) :
    ∃ n1 n2, pyIntE (gs[0]?.getD []) = .ok n1 ∧ pyIntE (gs[1]?.getD []) = .ok n2 := by
  obtain ⟨d, gs', rfl, hne, hd, d2, gs2, rfl, hne2, hd2, rfl⟩ := h
  obtain ⟨n1, h1⟩ := pyIntE_isOk hne hd
  obtain ⟨n2, h2⟩ := pyIntE_isOk hne2 hd2
  exact ⟨n1, n2, by simpa using h1, by simpa using h2⟩

/-- Patterns whose single capture is a `(\d+)` group. -/
theorem capsOne_ok {gs : List (List Char)}
    (h : ∃ d gs', gs = d :: gs' ∧ d ≠ [] ∧ d.all isDigitC = true ∧ gs' = []) :
    ∃ n, pyIntE (gs[0]?.getD []) = .ok n := by
  obtain ⟨d, gs', rfl, hne, hd, rfl⟩ := h
  obtain ⟨n, h1⟩ := pyIntE_isOk hne hd
  exact ⟨n, by simpa using h1⟩

/-- The four-capture `Prepared ... skipped` pattern: groups 1 and 3 are
non-empty digit runs, so the comma-stripped conversions succeed. -/
theorem capsPreparedA_ok {gs : List (List Char)} (h : capsOK patPreparedA gs) :
    ∃ n1 n2, pyIntE (stripCommas (gs[0]?.getD [])) = .ok n1 ∧
      pyIntE (stripCommas (gs[2]?.getD [])) = .ok n2 := by
  simp only [patPreparedA, capsOK] at h
  obtain ⟨d, gs', rfl, hne, hd, e, gs2, rfl, he,
    d3, gs3, rfl, hne3, hd3, e2, gs4, rfl, he2, rfl⟩ := h
  obtain ⟨n1, h1⟩ := pyIntE_isOk hne hd
  obtain ⟨n2, h2⟩ := pyIntE_isOk hne3 hd3
  refine ⟨n1, n2, ?_, ?_⟩
  · simpa [stripCommas_digits hd] using h1
  · simpa [stripCommas_digits hd3] using h2

/-! ### The extraction surface never raises -/

/-- Boolean success test on the error monad. -/
def okE : Except String α → Bool
  | .ok _ => true
  | .error _ => false

theorem okE_exists {x : Except String α} (h : okE x = true) : ∃ a, x = .ok a := by
  cases x with
  | ok a => exact ⟨a, rfl⟩
  | error e => exact absurd h (by simp [okE])

theorem simpleStepE_ok (all : List String) (i : Nat) (line : String) (m : Metrics) :
    ∃ m', simpleStepE all i line m = .ok m' := by
  apply okE_exists
  simp only [simpleStepE]
  split
  · cases hgs : reSearch patResolvedUsers line.data with
    | none => simp [hgs, okE]
    | some gs =>
        obtain ⟨n1, n2, h1, h2⟩ :=
          capsTwo_ok (by simpa [patResolvedUsers, capsOK] using reSearch_caps hgs)
        simp [hgs, h1, h2, okE]
  · split
    · cases hgs : reSearch patResolvedCourses line.data with
      | none => simp [hgs, okE]
      | some gs =>
          obtain ⟨n1, n2, h1, h2⟩ :=
            capsTwo_ok (by simpa [patResolvedCourses, capsOK] using reSearch_caps hgs)
          simp [hgs, h1, h2, okE]
    · split
      · cases hgs : reSearch patPreparedA line.data with
        | none => simp [hgs, okE]
        | some gs =>
            obtain ⟨n1, n2, h1, h2⟩ := capsPreparedA_ok (reSearch_caps hgs)
            simp [hgs, h1, h2, okE]
      · split
        · cases hf : ((all.drop i).take 5).find? (fun l =>
              hasSub "successful:" (lowerS l.data) && hasSub "failed:" (lowerS l.data)) with
          | none => simp [hf, okE]
          | some l =>
              cases hgs : reSearch patSummaryA l.data with
              | none => simp [hf, hgs, okE]
              | some gs =>
                  obtain ⟨n1, n2, h1, h2⟩ :=
                    capsTwo_ok (by simpa [patSummaryA, capsOK] using reSearch_caps hgs)
                  simp [hf, hgs, h1, h2, okE]
        · rfl

theorem ruleTotalE_ok (cs lcs : List Char) (m : Metrics) :
    ∃ m', ruleTotalE cs lcs m = .ok m' := by
  apply okE_exists
  simp only [ruleTotalE]
  split
  · cases hgs : reSearch patTotalEnr cs with
    | none => simp [hgs, okE]
    | some gs =>
        obtain ⟨n, h1⟩ :=
          capsOne_ok (by simpa [patTotalEnr, capsOK] using reSearch_caps hgs)
        simp [hgs, h1, okE]
  · rfl

theorem ruleUniqueUsersE_ok (cs lcs : List Char) (m : Metrics) :
    ∃ m', ruleUniqueUsersE cs lcs m = .ok m' := by
  apply okE_exists
  simp only [ruleUniqueUsersE]
  split
  · cases hgs : reSearch patUniqueUsers cs with
    | none => simp [hgs, okE]
    | some gs =>
        obtain ⟨n, h1⟩ :=
          capsOne_ok (by simpa [patUniqueUsers, capsOK] using reSearch_caps hgs)
        simp [hgs, h1, okE]
  · rfl

theorem ruleUniqueCoursesE_ok (cs lcs : List Char) (m : Metrics) :
    ∃ m', ruleUniqueCoursesE cs lcs m = .ok m' := by
  apply okE_exists
  simp only [ruleUniqueCoursesE]
  split
  · cases hgs : reSearch patUniqueCourses cs with
    | none => simp [hgs, okE]
    | some gs =>
        obtain ⟨n, h1⟩ :=
          capsOne_ok (by simpa [patUniqueCourses, capsOK] using reSearch_caps hgs)
        simp [hgs, h1, okE]
  · rfl

theorem origChainE_ok (cs lcs : List Char) (m : Metrics) (cur : Option Batch) :
    ∃ r, origChainE cs lcs m cur = .ok r := by
  apply okE_exists
  simp only [origChainE]
  split
  · cases hgs : reSearch patBatchOpen cs with
    | none => simp [hgs, okE]
    | some gs =>
        obtain ⟨n1, n2, h1, h2⟩ :=
          capsTwo_ok (by simpa [patBatchOpen, capsOK] using reSearch_caps hgs)
        simp [hgs, h1, h2, okE]
  · split
    · cases cur with
      | some b => rfl
      | none => rfl
    · split
      · cases cur with
        | some b => rfl
        | none => rfl
      · split
        · rfl
        · split
          · cases hgs : reSearch patComplete cs with
            | none => simp [hgs, okE]
            | some gs =>
                obtain ⟨n1, n2, h1, h2⟩ :=
                  capsTwo_ok (by simpa [patComplete, capsOK] using reSearch_caps hgs)
                simp [hgs, h1, h2, okE]
          · split
            · cases hgs : reSearch patPreparedB cs with
              | none => simp [hgs, okE]
              | some gs =>
                  obtain ⟨n1, n2, h1, h2⟩ :=
                    capsTwo_ok (by simpa [patPreparedB, capsOK] using reSearch_caps hgs)
                  simp [hgs, h1, h2, okE]
            · rfl

theorem origStepE_ok (line : String) (m : Metrics) (cur : Option Batch) :
    ∃ r, origStepE line m cur = .ok r := by
  simp only [origStepE]
  obtain ⟨m1, e1⟩ := ruleTotalE_ok line.data (lowerS line.data) m
  obtain ⟨m2, e2⟩ := ruleUniqueUsersE_ok line.data (lowerS line.data) m1
  obtain ⟨m3, e3⟩ := ruleUniqueCoursesE_ok line.data (lowerS line.data) m2
  obtain ⟨r, e4⟩ := origChainE_ok line.data (lowerS line.data) m3 cur
  exact ⟨r, by simp [e1, e2, e3, e4]⟩

theorem mainLoopE_ok (all : List String) :
    ∀ (rest : List String) (i : Nat) (m : Metrics) (cur : Option Batch),
      ∃ r, mainLoopE all rest i m cur = .ok r := by
  intro rest
  induction rest with
  | nil => exact fun i m cur => ⟨(m, cur), rfl⟩
  | cons line rest ih =>
      intro i m cur
      simp only [mainLoopE]
      split
      · obtain ⟨m2, h2⟩ :=
          simpleStepE_ok all i line (facStep line.data (lowerS line.data) m)
        obtain ⟨r, hr⟩ := ih (i + 1) m2 cur
        exact ⟨r, by simp [h2, hr]⟩
      · obtain ⟨⟨m2, cur2⟩, h2⟩ :=
          origStepE_ok line (facStep line.data (lowerS line.data) m) cur
        obtain ⟨r, hr⟩ := ih (i + 1) m2 cur2
        exact ⟨r, by simp [h2, hr]⟩

/-- The pipeline always reaches the end of the pass and returns a metrics
object: the error channel of `parse_core` is unreachable. -/
theorem parse_core_ok (lines : List String) (mtime : Nat) :
    parse_core lines mtime = .ok (parse_log_file lines mtime) := by
  obtain ⟨⟨m1, cur1⟩, hr⟩ := mainLoopE_ok lines lines 0
    { initMetrics mtime with log_format := detect_log_format lines } none
  simp [parse_core, parse_log_file, hr]

/-! ### Reconciliation is idempotent -/

theorem recon1_idem (m : Metrics) : recon1 (recon1 m) = recon1 m := by
  simp only [recon1]
  split
  · split
    · rfl
    · rfl
  · rfl

theorem recon2_idem (m : Metrics) : recon2 (recon2 m) = recon2 m := by
  simp only [recon2]
  split
  · split
    · rfl
    · rfl
  · rfl

theorem recon1_recon2_recon1 (m : Metrics) :
    recon1 (recon2 (recon1 m)) = recon2 (recon1 m) := by
  simp only [recon1, recon2]
  split
  · split
    · split
      · rfl
      · rfl
    · split
      · rfl
      · rfl
  · split
    · rfl
    · rfl

/-! ### Breakdown symmetry

Each faculty-scan hit bumps `faculty_breakdown[category]` and
`department_breakdown[code]` together, and no other rule touches either
map, so for every category the faculty count equals the sum of the
department counts of the codes mapped to it. -/

/-- Sum of the department-breakdown counts over the table codes whose
category is `f`. -/
def codeSum : List (String × String) → List (String × Nat) → String → Nat
  | [], _, _ => 0
  | p :: ts, dept, f => (if p.2 == f then cnt dept p.1 else 0) + codeSum ts dept f

theorem cnt_bump (d : List (String × Nat)) (k k' : String) :
    cnt (bump d k) k' = cnt d k' + (if k == k' then 1 else 0) := by
  induction d with
  | nil => simp only [bump, cnt]; split <;> simp
  | cons a rest ih =>
      obtain ⟨ka, va⟩ := a
      by_cases hk : ka = k
      · subst hk
        simp only [bump, beq_self_eq_true, if_true, cnt]
        by_cases h2 : ka = k'
        · subst h2; simp
        · simp [h2, beq_eq_false_iff_ne.mpr h2]
      · simp only [bump, beq_eq_false_iff_ne.mpr hk, if_false, cnt]
        by_cases h2 : ka = k'
        · subst h2
          have hkka : (k == ka) = false :=
            beq_eq_false_iff_ne.mpr (fun he => hk he.symm)
          simp [cnt, hkka]
        · simp [beq_eq_false_iff_ne.mpr h2, ih]

theorem codeSum_dept_nil (ts : List (String × String)) (f : String) :
    codeSum ts [] f = 0 := by
  induction ts with
  | nil => rfl
  | cons p ts ih => simp [codeSum, cnt, ih]

theorem codeSum_bump_not_mem {ts : List (String × String)} {c0 : String}
    (h : ∀ p ∈ ts, p.1 ≠ c0) (dept : List (String × Nat)) (f : String) :
    codeSum ts (bump dept c0) f = codeSum ts dept f := by
  induction ts with
  | nil => rfl
  | cons p ts ih =>
      have h1 : p.1 ≠ c0 := h p (by simp)
      have hcnt : cnt (bump dept c0) p.1 = cnt dept p.1 := by
        rw [cnt_bump]
        simp [beq_eq_false_iff_ne.mpr (fun he => h1 he.symm)]
      simp [codeSum, hcnt, ih (fun q hq => h q (by simp [hq]))]

theorem codeSum_bump {ts : List (String × String)} {c0 f0 : String}
    (hmem : (c0, f0) ∈ ts) (hnd : (ts.map Prod.fst).Nodup)
    (dept : List (String × Nat)) (f : String) :
    codeSum ts (bump dept c0) f =
      codeSum ts dept f + (if f0 == f then 1 else 0) := by
  induction ts with
  | nil => cases hmem
  | cons p ts ih =>
      rw [List.map_cons] at hnd
      rcases List.mem_cons.mp hmem with heq | hmem'
      · obtain rfl := heq.symm
        have hnotin : ∀ q ∈ ts, q.1 ≠ c0 := by
          intro q hq he
          have hmm : q.1 ∈ ts.map Prod.fst := List.mem_map_of_mem Prod.fst hq
          rw [he] at hmm
          exact (List.nodup_cons.mp hnd).1 hmm
        rw [codeSum, codeSum, codeSum_bump_not_mem hnotin, cnt_bump]
        simp only [beq_self_eq_true, if_true]
        split <;> omega
      · have hne : p.1 ≠ c0 := by
          intro he
          have hmm : c0 ∈ ts.map Prod.fst := by
            simpa using List.mem_map_of_mem Prod.fst hmem'
          rw [← he] at hmm
          exact (List.nodup_cons.mp hnd).1 hmm
        have hcnt : cnt (bump dept c0) p.1 = cnt dept p.1 := by
          rw [cnt_bump]
          simp [beq_eq_false_iff_ne.mpr (fun he => hne he.symm)]
        rw [codeSum, codeSum, hcnt, ih hmem' (List.nodup_cons.mp hnd).2]
        omega

theorem faculty_codes_keys_nodup : (faculty_codes.map Prod.fst).Nodup := by decide

/-- The breakdown-symmetry invariant on a metrics object. -/
def BreakInv (m : Metrics) : Prop :=
  ∀ f, cnt m.faculty_breakdown f = codeSum faculty_codes m.department_breakdown f

theorem facUpdate_inv {cs lcs : List Char} {m : Metrics} {p : String × String}
    (hp : p ∈ faculty_codes) (hm : BreakInv m) : BreakInv (facUpdate cs lcs m p) := by
  intro f
  simp only [facUpdate]
  split
  · show cnt (bump m.faculty_breakdown p.2) f =
      codeSum faculty_codes (bump m.department_breakdown p.1) f
    rw [cnt_bump, codeSum_bump (show (p.1, p.2) ∈ faculty_codes by simpa using hp)
      faculty_codes_keys_nodup, hm f]
  · exact hm f

theorem facFold_inv (cs lcs : List Char) :
    ∀ (ts : List (String × String)) (m : Metrics),
      (∀ p ∈ ts, p ∈ faculty_codes) → BreakInv m →
      BreakInv (ts.foldl (facUpdate cs lcs) m) := by
  intro ts
  induction ts with
  | nil => exact fun m _ hm => hm
  | cons p ts ih =>
      intro m hsub hm
      simp only [List.foldl_cons]
      exact ih _ (fun q hq => hsub q (by simp [hq]))
        (facUpdate_inv (hsub p (by simp)) hm)

theorem facStep_inv {cs lcs : List Char} {m : Metrics} (hm : BreakInv m) :
    BreakInv (facStep cs lcs m) :=
  facFold_inv cs lcs faculty_codes m (fun _ hp => hp) hm

/-! ### Frame lemmas: which fields each rule set leaves untouched -/

theorem facUpdate_frame (cs lcs : List Char) (m : Metrics) (p : String × String) :
    (facUpdate cs lcs m p).log_format = m.log_format ∧
    (facUpdate cs lcs m p).users_missing = m.users_missing ∧
    (facUpdate cs lcs m p).courses_missing = m.courses_missing := by
  simp only [facUpdate]
  split
  · exact ⟨rfl, rfl, rfl⟩
  · exact ⟨rfl, rfl, rfl⟩

theorem facStep_frame (cs lcs : List Char) :
    ∀ (ts : List (String × String)) (m : Metrics),
      (ts.foldl (facUpdate cs lcs) m).log_format = m.log_format ∧
      (ts.foldl (facUpdate cs lcs) m).users_missing = m.users_missing ∧
      (ts.foldl (facUpdate cs lcs) m).courses_missing = m.courses_missing := by
  intro ts
  induction ts with
  | nil => exact fun m => ⟨rfl, rfl, rfl⟩
  | cons p ts ih =>
      intro m
      simp only [List.foldl_cons]
      obtain ⟨h1, h2, h3⟩ := ih (facUpdate cs lcs m p)
      obtain ⟨g1, g2, g3⟩ := facUpdate_frame cs lcs m p
      exact ⟨h1.trans g1, h2.trans g2, h3.trans g3⟩

/-- Frame of the `simple_enroll` rules: breakdowns and format untouched. -/
def sframe (m : Metrics) : Except String Metrics → Prop
  | .ok m' =>
      m'.faculty_breakdown = m.faculty_breakdown ∧
      m'.department_breakdown = m.department_breakdown ∧
      m'.log_format = m.log_format
  | .error _ => True

/-- Frame of the three leading original-branch rules. -/
def rframe (m : Metrics) : Except String Metrics → Prop
  | .ok m' =>
      m'.faculty_breakdown = m.faculty_breakdown ∧
      m'.department_breakdown = m.department_breakdown ∧
      m'.log_format = m.log_format ∧
      m'.users_missing = m.users_missing ∧
      m'.courses_missing = m.courses_missing ∧
      m'.api_errors = m.api_errors ∧
      m'.errors = m.errors
  | .error _ => True

/-- Frame of the original-branch chain: breakdowns, format and the
resolution-missing counts untouched. -/
def oframe (m : Metrics) : Except String (Metrics × Option Batch) → Prop
  | .ok r =>
      r.1.faculty_breakdown = m.faculty_breakdown ∧
      r.1.department_breakdown = m.department_breakdown ∧
      r.1.log_format = m.log_format ∧
      r.1.users_missing = m.users_missing ∧
      r.1.courses_missing = m.courses_missing
  | .error _ => True

theorem simpleStepE_sframe (all : List String) (i : Nat) (line : String)
    (m : Metrics) : sframe m (simpleStepE all i line m) := by
  simp only [simpleStepE]
  repeat' split
  all_goals simp [sframe]

theorem simpleStepE_frame {all : List String} {i : Nat} {line : String}
    {m m' : Metrics} (h : simpleStepE all i line m = .ok m') :
    m'.faculty_breakdown = m.faculty_breakdown ∧
    m'.department_breakdown = m.department_breakdown ∧
    m'.log_format = m.log_format := by
  have hs := simpleStepE_sframe all i line m
  rw [h] at hs
  exact hs

theorem ruleTotalE_rframe (cs lcs : List Char) (m : Metrics) :
    rframe m (ruleTotalE cs lcs m) := by
  simp only [ruleTotalE]
  repeat' split
  all_goals simp [rframe]

theorem ruleUniqueUsersE_rframe (cs lcs : List Char) (m : Metrics) :
    rframe m (ruleUniqueUsersE cs lcs m) := by
  simp only [ruleUniqueUsersE]
  repeat' split
  all_goals simp [rframe]

theorem ruleUniqueCoursesE_rframe (cs lcs : List Char) (m : Metrics) :
    rframe m (ruleUniqueCoursesE cs lcs m) := by
  simp only [ruleUniqueCoursesE]
  repeat' split
  all_goals simp [rframe]

theorem origChainE_oframe (cs lcs : List Char) (m : Metrics) (cur : Option Batch) :
    oframe m (origChainE cs lcs m cur) := by
  simp only [origChainE]
  repeat' split
  all_goals simp [oframe]

theorem origChainE_frame {cs lcs : List Char} {m : Metrics} {cur : Option Batch}
    {m' : Metrics} {cur' : Option Batch}
    (h : origChainE cs lcs m cur = .ok (m', cur')) :
    m'.faculty_breakdown = m.faculty_breakdown ∧
    m'.department_breakdown = m.department_breakdown ∧
    m'.log_format = m.log_format ∧
    m'.users_missing = m.users_missing ∧
    m'.courses_missing = m.courses_missing := by
  have hs := origChainE_oframe cs lcs m cur
  rw [h] at hs
  exact hs

theorem origStepE_frame {line : String} {m : Metrics} {cur : Option Batch}
    {m' : Metrics} {cur' : Option Batch}
    (h : origStepE line m cur = .ok (m', cur')) :
    m'.faculty_breakdown = m.faculty_breakdown ∧
    m'.department_breakdown = m.department_breakdown ∧
    m'.log_format = m.log_format ∧
    m'.users_missing = m.users_missing ∧
    m'.courses_missing = m.courses_missing := by
  simp only [origStepE] at h
  cases h1 : ruleTotalE line.data (lowerS line.data) m with
  | error e => simp [h1] at h
  | ok m1 =>
      simp only [h1] at h
      cases h2 : ruleUniqueUsersE line.data (lowerS line.data) m1 with
      | error e => simp [h2] at h
      | ok m2 =>
          simp only [h2] at h
          cases h3 : ruleUniqueCoursesE line.data (lowerS line.data) m2 with
          | error e => simp [h3] at h
          | ok m3 =>
              simp only [h3] at h
              have ha := ruleTotalE_rframe line.data (lowerS line.data) m
              rw [h1] at ha
              have hb := ruleUniqueUsersE_rframe line.data (lowerS line.data) m1
              rw [h2] at hb
              have hc := ruleUniqueCoursesE_rframe line.data (lowerS line.data) m2
              rw [h3] at hc
              obtain ⟨a1, a2, a3, a4, a5, _, _⟩ := ha
              obtain ⟨b1, b2, b3, b4, b5, _, _⟩ := hb
              obtain ⟨c1, c2, c3, c4, c5, _, _⟩ := hc
              obtain ⟨d1, d2, d3, d4, d5⟩ := origChainE_frame h
              exact ⟨((d1.trans c1).trans b1).trans a1,
                     ((d2.trans c2).trans b2).trans a2,
                     ((d3.trans c3).trans b3).trans a3,
                     ((d4.trans c4).trans b4).trans a4,
                     ((d5.trans c5).trans b5).trans a5⟩

theorem reconcile_frame (m : Metrics) :
    (reconcile m).faculty_breakdown = m.faculty_breakdown ∧
    (reconcile m).department_breakdown = m.department_breakdown ∧
    (reconcile m).log_format = m.log_format ∧
    (reconcile m).users_missing = m.users_missing ∧
    (reconcile m).courses_missing = m.courses_missing := by
  simp only [reconcile, recon1, recon2]
  split <;> split <;> exact ⟨rfl, rfl, rfl, rfl, rfl⟩

theorem facStep_fields (cs lcs : List Char) (m : Metrics) :
    (facStep cs lcs m).log_format = m.log_format ∧
    (facStep cs lcs m).users_missing = m.users_missing ∧
    (facStep cs lcs m).courses_missing = m.courses_missing :=
  facStep_frame cs lcs faculty_codes m

/-! ### Loop invariants -/

theorem mainLoopE_inv (all : List String) :
    ∀ (rest : List String) (i : Nat) (m : Metrics) (cur : Option Batch)
      (m' : Metrics) (cur' : Option Batch),
      mainLoopE all rest i m cur = .ok (m', cur') → BreakInv m → BreakInv m' := by
  intro rest
  induction rest with
  | nil =>
      intro i m cur m' cur' h hm
      simp only [mainLoopE, Except.ok.injEq, Prod.mk.injEq] at h
      obtain ⟨h1, -⟩ := h
      rw [← h1]
      exact hm
  | cons line rest ih =>
      intro i m cur m' cur' h hm
      simp only [mainLoopE] at h
      have hfac : BreakInv (facStep line.data (lowerS line.data) m) := facStep_inv hm
      split at h
      · cases hs : simpleStepE all i line (facStep line.data (lowerS line.data) m) with
        | error e => simp [hs] at h
        | ok m2 =>
            simp only [hs] at h
            obtain ⟨f1, f2, -⟩ := simpleStepE_frame hs
            refine ih _ _ _ _ _ h ?_
            intro f
            rw [f1, f2]
            exact hfac f
      · cases ho : origStepE line (facStep line.data (lowerS line.data) m) cur with
        | error e => simp [ho] at h
        | ok r =>
            obtain ⟨m2, cur2⟩ := r
            simp only [ho] at h
            obtain ⟨f1, f2, -, -, -⟩ := origStepE_frame ho
            refine ih _ _ _ _ _ h ?_
            intro f
            rw [f1, f2]
            exact hfac f

theorem mainLoopE_format (all : List String) :
    ∀ (rest : List String) (i : Nat) (m : Metrics) (cur : Option Batch)
      (m' : Metrics) (cur' : Option Batch),
      mainLoopE all rest i m cur = .ok (m', cur') →
      m'.log_format = m.log_format := by
  intro rest
  induction rest with
  | nil =>
      intro i m cur m' cur' h
      simp only [mainLoopE, Except.ok.injEq, Prod.mk.injEq] at h
      rw [← h.1]
  | cons line rest ih =>
      intro i m cur m' cur' h
      simp only [mainLoopE] at h
      have hfac := (facStep_fields line.data (lowerS line.data) m).1
      split at h
      · cases hs : simpleStepE all i line (facStep line.data (lowerS line.data) m) with
        | error e => simp [hs] at h
        | ok m2 =>
            simp only [hs] at h
            exact (ih _ _ _ _ _ h).trans (((simpleStepE_frame hs).2.2).trans hfac)
      · cases ho : origStepE line (facStep line.data (lowerS line.data) m) cur with
        | error e => simp [ho] at h
        | ok r =>
            obtain ⟨m2, cur2⟩ := r
            simp only [ho] at h
            exact (ih _ _ _ _ _ h).trans (((origStepE_frame ho).2.2.1).trans hfac)

theorem mainLoopE_missing (all : List String) :
    ∀ (rest : List String) (i : Nat) (m : Metrics) (cur : Option Batch)
      (m' : Metrics) (cur' : Option Batch),
      mainLoopE all rest i m cur = .ok (m', cur') →
      m.log_format ≠ .simple_enroll →
      m'.users_missing = m.users_missing ∧
      m'.courses_missing = m.courses_missing := by
  intro rest
  induction rest with
  | nil =>
      intro i m cur m' cur' h hne
      simp only [mainLoopE, Except.ok.injEq, Prod.mk.injEq] at h
      rw [← h.1]
      exact ⟨rfl, rfl⟩
  | cons line rest ih =>
      intro i m cur m' cur' h hne
      simp only [mainLoopE] at h
      obtain ⟨hfmt, hum, hcm⟩ := facStep_fields line.data (lowerS line.data) m
      split at h
      · rename_i hcond
        rw [beq_iff_eq, hfmt] at hcond
        exact absurd hcond hne
      · cases ho : origStepE line (facStep line.data (lowerS line.data) m) cur with
        | error e => simp [ho] at h
        | ok r =>
            obtain ⟨m2, cur2⟩ := r
            simp only [ho] at h
            obtain ⟨-, -, g3, g4, g5⟩ := origStepE_frame ho
            have hne2 : m2.log_format ≠ .simple_enroll := by
              rw [g3, hfmt]
              exact hne
            obtain ⟨hu, hc⟩ := ih _ _ _ _ _ h hne2
            exact ⟨(hu.trans g4).trans hum, (hc.trans g5).trans hcm⟩

/-! ### Pipeline-level consequences -/

theorem parse_cases (lines : List String) (mtime : Nat) :
    ∃ m1 cur1,
      mainLoopE lines lines 0
        { initMetrics mtime with log_format := detect_log_format lines } none =
          .ok (m1, cur1) ∧
      parse_log_file lines mtime =
        reconcile { m1 with recent_entries := recentEntries lines } := by
  obtain ⟨⟨m1, cur1⟩, hr⟩ := mainLoopE_ok lines lines 0
    { initMetrics mtime with log_format := detect_log_format lines } none
  exact ⟨m1, cur1, hr, by simp [parse_log_file, parse_core, hr]⟩

theorem breakdown_inv_parse (lines : List String) (mtime : Nat) :
    BreakInv (parse_log_file lines mtime) := by
  obtain ⟨m1, cur1, hl, hp⟩ := parse_cases lines mtime
  have hinit : BreakInv
      { initMetrics mtime with log_format := detect_log_format lines } := by
    intro f
    simp [initMetrics, cnt, codeSum_dept_nil]
  have hm1 := mainLoopE_inv lines lines 0 _ none m1 cur1 hl hinit
  rw [hp]
  intro f
  rw [(reconcile_frame _).1, (reconcile_frame _).2.1]
  exact hm1 f

theorem parse_format (lines : List String) (mtime : Nat) :
    (parse_log_file lines mtime).log_format = detect_log_format lines := by
  obtain ⟨m1, cur1, hl, hp⟩ := parse_cases lines mtime
  rw [hp, (reconcile_frame _).2.2.1]
  exact mainLoopE_format lines lines 0 _ none m1 cur1 hl

theorem parse_missing (lines : List String) (mtime : Nat)
    (h : (parse_log_file lines mtime).log_format ≠ .simple_enroll) :
    (parse_log_file lines mtime).users_missing = 0 ∧
    (parse_log_file lines mtime).courses_missing = 0 := by
  obtain ⟨m1, cur1, hl, hp⟩ := parse_cases lines mtime
  have hfmt : detect_log_format lines ≠ .simple_enroll := by
    rw [← parse_format lines mtime]
    exact h
  obtain ⟨hu, hc⟩ := mainLoopE_missing lines lines 0 _ none m1 cur1 hl hfmt
  rw [hp, (reconcile_frame _).2.2.2.1, (reconcile_frame _).2.2.2.2]
  exact ⟨hu, hc⟩

/-- When none of the earlier chain guards can fire, the API-failure rule
produces exactly an `api_errors` increment and leaves everything else,
including `errors`, unchanged. -/
theorem origChainE_api {cs lcs : List Char} (m : Metrics) (cur : Option Batch)
    (hapi : hasSub "api call" lcs = true) (hfailed : hasSub "failed" lcs = true)
    (hbatch : hasSub "batch" lcs = false) (hsucc : hasSub "success" lcs = false)
    (hx : hasSub "✗" cs = false) :
    origChainE cs lcs m cur =
      .ok ({ m with api_errors := m.api_errors + 1 }, cur) := by
  simp [origChainE, hapi, hfailed, hbatch, hsucc, hx]

/-! ### The claims -/

/-- C1: the spec claims `total_records ≥ successful + errors` in every
returned snapshot once reconciled, and the source's own comment says
"Ensure total_records is at least successful+errors"; but reconciliation
only rewrites `total_records` when it is exactly zero, so a log that
reports `Prepared 5 enrollments` together with a terminal
`successful: 98 failed: 0` summary yields `total_records = 5 < 98`.
This theorem evaluates the engine at that failing input. -/
theorem c1_total_invariant_fails_on_code :
    (parse_log_file ["Prepared 5 enrollments (0 skipped)", "Enrollment complete.",
        "successful: 98 failed: 0"] 0).total_records = 5 ∧
    (parse_log_file ["Prepared 5 enrollments (0 skipped)", "Enrollment complete.",
        "successful: 98 failed: 0"] 0).successful = 98 ∧
    (parse_log_file ["Prepared 5 enrollments (0 skipped)", "Enrollment complete.",
        "successful: 98 failed: 0"] 0).errors = 0 ∧
    ¬((parse_log_file ["Prepared 5 enrollments (0 skipped)", "Enrollment complete.",
        "successful: 98 failed: 0"] 0).successful +
      (parse_log_file ["Prepared 5 enrollments (0 skipped)", "Enrollment complete.",
        "successful: 98 failed: 0"] 0).errors ≤
      (parse_log_file ["Prepared 5 enrollments (0 skipped)", "Enrollment complete.",
        "successful: 98 failed: 0"] 0).total_records) := by
  decide

/-- C2: on the spec's end-to-end scenario 1 input, every field agrees with
the claim except the terminal summary: the source's summary regex
`successful: (\d+).*failed: (\d+)` is case-sensitive while its guard
lower-cases the line, so `Successful: 98 Failed: 0` is never parsed and the
snapshot reports `successful = 0, errors = 0` instead of `98, 0`.
This theorem evaluates the engine at the scenario input. -/
theorem c2_scenario_one_summary_not_parsed :
    (parse_log_file ["Resolved 8/10 users", "Resolved 5/5 courses",
        "Prepared 100 enrollments (2 skipped)", "Enrollment complete.",
        "Successful: 98 Failed: 0"] 0).log_format = .simple_enroll ∧
    (parse_log_file ["Resolved 8/10 users", "Resolved 5/5 courses",
        "Prepared 100 enrollments (2 skipped)", "Enrollment complete.",
        "Successful: 98 Failed: 0"] 0).users_found = 8 ∧
    (parse_log_file ["Resolved 8/10 users", "Resolved 5/5 courses",
        "Prepared 100 enrollments (2 skipped)", "Enrollment complete.",
        "Successful: 98 Failed: 0"] 0).users_missing = 2 ∧
    (parse_log_file ["Resolved 8/10 users", "Resolved 5/5 courses",
        "Prepared 100 enrollments (2 skipped)", "Enrollment complete.",
        "Successful: 98 Failed: 0"] 0).courses_found = 5 ∧
    (parse_log_file ["Resolved 8/10 users", "Resolved 5/5 courses",
        "Prepared 100 enrollments (2 skipped)", "Enrollment complete.",
        "Successful: 98 Failed: 0"] 0).courses_missing = 0 ∧
    (parse_log_file ["Resolved 8/10 users", "Resolved 5/5 courses",
        "Prepared 100 enrollments (2 skipped)", "Enrollment complete.",
        "Successful: 98 Failed: 0"] 0).total_records = 100 ∧
    (parse_log_file ["Resolved 8/10 users", "Resolved 5/5 courses",
        "Prepared 100 enrollments (2 skipped)", "Enrollment complete.",
        "Successful: 98 Failed: 0"] 0).skipped_records = 2 ∧
    (parse_log_file ["Resolved 8/10 users", "Resolved 5/5 courses",
        "Prepared 100 enrollments (2 skipped)", "Enrollment complete.",
        "Successful: 98 Failed: 0"] 0).successful = 0 ∧
    (parse_log_file ["Resolved 8/10 users", "Resolved 5/5 courses",
        "Prepared 100 enrollments (2 skipped)", "Enrollment complete.",
        "Successful: 98 Failed: 0"] 0).errors = 0 := by
  decide

/-- C3: extraction is total on its pure surface: for every already-read
line sequence and timestamp, the `Except`-modelled pipeline (whose error
channel stands for a Python exception escaping the loop — the `int()`
conversions are the only fallible operations) returns `ok` with the full,
reconciled metrics object; no input ever reaches the error channel. -/
theorem c3_extraction_total (lines : List String) (mtime : Nat) :
    parse_core lines mtime = .ok (parse_log_file lines mtime) :=
  parse_core_ok lines mtime

/-- C4: opening `Batch 2` while `Batch 1` is still open and unterminated
silently discards batch 1: after a single success marker the completed
batch list holds exactly one entry, for batch 2 with its 5 records, and no
entry for batch 1. -/
theorem c4_batch_overwrite :
    (parse_log_file ["Batch 1: 3 enrollments", "Batch 2: 5 enrollments",
        "Batch success ✓"] 0).batch_info =
      [{ batch := 2, count := 5, status := .Success }] := by
  decide

/-- C5: reconciliation is idempotent: for every metrics object, applying
the reconciliation pass (recompute `successful`/`errors` from completed
batches when both are zero; derive `total_records` when it is zero) a
second time changes no field. -/
theorem c5_reconcile_idempotent (m : Metrics) :
    reconcile (reconcile m) = reconcile m := by
  show recon2 (recon1 (recon2 (recon1 m))) = reconcile m
  rw [recon1_recon2_recon1, recon2_idem]
  rfl

/-- C6: breakdown symmetry: in every returned snapshot, for every category
the `faculty_breakdown` count equals the sum of the `department_breakdown`
counts over the registry codes mapped to that category — every code bump is
paired with a category bump of the same amount. -/
theorem c6_breakdown_symmetry (lines : List String) (mtime : Nat) (f : String) :
    cnt (parse_log_file lines mtime).faculty_breakdown f =
      codeSum faculty_codes (parse_log_file lines mtime).department_breakdown f :=
  breakdown_inv_parse lines mtime f

/-- C7: the spec claims numeric captures strip thousands separators, and
the source even calls `.replace(',', '')` on the captures; but the captures
come from `(\d+)` groups that can never contain a comma (the digits after
the comma go to discarded groups), so `Prepared 1,234 enrollments
(1,000 skipped)` parses as `total_records = 1, skipped_records = 1`, not
`1234`/`1000`.  This theorem evaluates the engine at that failing input. -/
theorem c7_comma_numbers_truncated :
    (parse_log_file ["Prepared 1,234 enrollments (1,000 skipped)"] 0).total_records
        = 1 ∧
    (parse_log_file ["Prepared 1,234 enrollments (1,000 skipped)"] 0).skipped_records
        = 1 := by
  decide

/-- C8 counterexample: the claim says an input whose only recognized line
is an API-failure marker yields `api_errors = 1` and `errors ≥ 1`; the code
increments only `api_errors`, never `errors`, so `errors = 0` there. -/
theorem c8_counterexample :
    (parse_log_file ["API call failed"] 0).api_errors = 1 ∧
    ¬(1 ≤ (parse_log_file ["API call failed"] 0).errors) := by
  decide

/-- C8 (amended): in the non-FormatA rule set, a line containing the
API-failure marker that is not captured by an earlier rule in the chain
increments `api_errors` by exactly 1 and leaves `errors` unchanged (it is
never added to `errors`). -/
theorem c8_api_marker (line : String) (m : Metrics) (cur : Option Batch)
    (hapi : hasSub "api call" (lowerS line.data) = true)
    (hfailed : hasSub "failed" (lowerS line.data) = true)
    (hbatch : hasSub "batch" (lowerS line.data) = false)
    (hsucc : hasSub "success" (lowerS line.data) = false)
    (hx : hasSub "✗" line.data = false) :
    ∃ m', origStepE line m cur = .ok (m', cur) ∧
      m'.api_errors = m.api_errors + 1 ∧ m'.errors = m.errors := by
  obtain ⟨m1, e1⟩ := ruleTotalE_ok line.data (lowerS line.data) m
  obtain ⟨m2, e2⟩ := ruleUniqueUsersE_ok line.data (lowerS line.data) m1
  obtain ⟨m3, e3⟩ := ruleUniqueCoursesE_ok line.data (lowerS line.data) m2
  have ha := ruleTotalE_rframe line.data (lowerS line.data) m
  rw [e1] at ha
  have hb := ruleUniqueUsersE_rframe line.data (lowerS line.data) m1
  rw [e2] at hb
  have hc := ruleUniqueCoursesE_rframe line.data (lowerS line.data) m2
  rw [e3] at hc
  obtain ⟨-, -, -, -, -, a6, a7⟩ := ha
  obtain ⟨-, -, -, -, -, b6, b7⟩ := hb
  obtain ⟨-, -, -, -, -, c6, c7⟩ := hc
  have hchain := origChainE_api m3 cur hapi hfailed hbatch hsucc hx
  refine ⟨{ m3 with api_errors := m3.api_errors + 1 }, ?_, ?_, ?_⟩
  · simp [origStepE, e1, e2, e3, hchain]
  · show m3.api_errors + 1 = m.api_errors + 1
    rw [c6, b6, a6]
  · exact (c7.trans b7).trans a7

theorem c8_api_marker_witness :
    hasSub "api call" (lowerS "API call failed".data) = true ∧
    hasSub "failed" (lowerS "API call failed".data) = true ∧
    hasSub "batch" (lowerS "API call failed".data) = false ∧
    hasSub "success" (lowerS "API call failed".data) = false ∧
    hasSub "✗" "API call failed".data = false ∧
    ∃ m', origStepE "API call failed" (initMetrics 0) none = .ok (m', none) ∧
      m'.api_errors = (initMetrics 0).api_errors + 1 ∧
      m'.errors = (initMetrics 0).errors :=
  ⟨by decide, by decide, by decide, by decide, by decide,
   c8_api_marker "API call failed" (initMetrics 0) none
     (by decide) (by decide) (by decide) (by decide) (by decide)⟩

/-- C9 counterexample: the claim says every non-FormatA snapshot has all
four resolution counts zero, but the non-FormatA rule set itself parses
`Unique users: N` into `users_found`, so an Unknown-dialect input can have
`users_found = 3`. -/
theorem c9_counterexample :
    (parse_log_file ["Unique users: 3"] 0).log_format ≠ .simple_enroll ∧
    (parse_log_file ["Unique users: 3"] 0).users_found = 3 := by
  decide

/-- C9 (amended): for every input whose detected dialect is not FormatA
(`simple_enroll`), the returned snapshot has `users_missing = 0` and
`courses_missing = 0`; the found-counts may still be set by the
`Unique users:` / `Unique courses:` rules of the non-FormatA rule set. -/
theorem c9_missing_zero_outside_format_a (lines : List String) (mtime : Nat)
    (h : (parse_log_file lines mtime).log_format ≠ .simple_enroll) :
    (parse_log_file lines mtime).users_missing = 0 ∧
    (parse_log_file lines mtime).courses_missing = 0 :=
  parse_missing lines mtime h

theorem c9_missing_zero_outside_format_a_witness :
    (parse_log_file ["Unique users: 3"] 0).log_format ≠ .simple_enroll ∧
    ((parse_log_file ["Unique users: 3"] 0).users_missing = 0 ∧
     (parse_log_file ["Unique users: 3"] 0).courses_missing = 0) :=
  ⟨by decide, c9_missing_zero_outside_format_a ["Unique users: 3"] 0 (by decide)⟩

/-- C10: the missing-counts are computed by subtraction and can go
negative: on the FormatA line `Resolved 10/5 users` the snapshot reports
`users_found = 10` and `users_missing = -5 < 0`. -/
theorem c10_users_missing_negative :
    (parse_log_file ["Resolved 10/5 users"] 0).log_format = .simple_enroll ∧
    (parse_log_file ["Resolved 10/5 users"] 0).users_found = 10 ∧
    (parse_log_file ["Resolved 10/5 users"] 0).users_missing = -5 ∧
    (parse_log_file ["Resolved 10/5 users"] 0).users_missing < 0 := by
  decide

end EnrollmentMonitor
